import Mathlib

/-!
Formal model of the startup-registry crawler repository
(`startUpCrawler.py`, `startup_crawler.py`, `v2.py`, `v3.py`).

The Python scripts scrape company detail pages and write CSV rows.  Their
field extractors work by running ordered cascades of selector queries over a
parsed HTML document.  We embed each routine as a total Lean function over an
abstract view of the document: the view records exactly the answers the
routine's selector/xpath queries would return (element texts in document
order, sibling texts, table cells, anchor href attributes, and so on), and
the Lean function reproduces the routine's control flow over those answers.

String primitives (`str.strip`, `str.replace`, `in`, `split`) are modelled
over `List Char` so that every definition is executable and provable.
-/

/-! ## Python string primitives -/

/-- Python `str.strip()` on the underlying character list: drop whitespace
from both ends. -/
def pyStripL (l : List Char) : List Char :=
  ((l.dropWhile Char.isWhitespace).reverse.dropWhile Char.isWhitespace).reverse

/-- Python `str.strip()`. -/
def pyStrip (s : String) : String :=
  ⟨pyStripL s.data⟩

/-- Substring test on character lists: does `pat` occur inside `l`?
Models Python's `pat in l`. -/
def hasSubL (pat : List Char) : List Char → Bool
  | [] => pat.isEmpty
  | c :: cs => pat.isPrefixOf (c :: cs) || hasSubL pat cs

/-- Python `sub in s` substring containment. -/
def pyContains (s sub : String) : Bool :=
  hasSubL sub.data s.data

/-- Character list after the first `':'` (empty when there is no colon);
models `s.split(':', 1)[1]` when a colon is present. -/
def afterFirstColonL : List Char → List Char
  | [] => []
  | c :: cs => if c = ':' then cs else afterFirstColonL cs

/-- String after the first colon. -/
def afterFirstColon (s : String) : String :=
  ⟨afterFirstColonL s.data⟩

/-- One fuel-indexed step tower for Python `str.replace(pat, '')`: remove
every (non-overlapping, leftmost-first) occurrence of `pat`.  The fuel is an
artifact of structural recursion; `pyReplaceAll` supplies enough fuel. -/
def removeAllAux (pat : List Char) : Nat → List Char → List Char
  | _, [] => []
  | 0, l => l
  | fuel + 1, c :: cs =>
    if pat.isPrefixOf (c :: cs) = true ∧ pat ≠ [] then
      removeAllAux pat fuel (cs.drop (pat.length - 1))
    else
      c :: removeAllAux pat fuel cs

/-- Python `s.replace(pat, '')` for a non-empty pattern `pat`. -/
def pyRemoveAll (s pat : String) : String :=
  ⟨removeAllAux pat.data s.data.length s.data⟩

/-- Characters after the last `'@'` (the whole list when there is no `'@'`);
models Python `s.split('@')[-1]`. -/
def afterLastAtL (l : List Char) : List Char :=
  (l.reverse.takeWhile (fun c => c ≠ '@')).reverse

/-- Python `s.strip().isdigit()`-style test: non-empty and all digits. -/
def pyIsDigits (s : String) : Bool :=
  (!s.isEmpty) && s.data.all Char.isDigit

/-- Decimal value of a digit string, models Python `int(s)` on digit input. -/
def strToNat (s : String) : Nat :=
  s.data.foldl (fun n c => n * 10 + (c.toNat - '0'.toNat)) 0

/-- Truthiness filter for an optional attribute value: Python
`attr = elem.get(...)` followed by `if attr:`.  `none` and the empty string
are falsy. -/
def truthyOpt : Option String → Option String
  | none => none
  | some h => if h = "" then none else some h

/-- Value of one selector candidate under the ubiquitous Python pattern
`if content and content.strip(): return content.strip()`. -/
def stripSome : Option String → Option String
  | none => none
  | some t => if pyStrip t = "" then none else some (pyStrip t)

/-! ## Labeled-field extraction (startUpCrawler.py `extract_labeled_field`,
startup_crawler.py `extract_field_with_labels`)

A `LabelElem` records what the xpath queries of those routines read from one
DOM element: its first text node, the first text of its next sibling
(`./following-sibling::*[1]//text()`), and the first text of the parent's
next child (`../*[position()=...]//text()`). -/

structure LabelElem where
  text : String
  siblingText : Option String
  parentNextText : Option String
deriving DecidableEq

/-- The slices of a detail document that the labeled-field extractors
consult: all elements (document order) for the text scans, the `td` cells
paired with the first text of the following cell, and the `dt` entries
paired with the first text of the following `dd`. -/
structure LabelDoc where
  elements : List LabelElem
  tdCells : List (String × Option String)
  dtEntries : List (String × Option String)
deriving DecidableEq

/-- Colon branch of the element scan: `if ':' in full_text: parts =
full_text.split(':', 1); if len(parts) > 1 and parts[1].strip(): return
parts[1].strip()`. -/
def elemColonValue (e : LabelElem) : Option String :=
  if ':' ∈ e.text.data then
    (if pyStrip (afterFirstColon e.text) = "" then none
     else some (pyStrip (afterFirstColon e.text)))
  else none

/-- Sibling / parent-next-child fallback of the element scan. -/
def elemNearbyValue (e : LabelElem) : Option String :=
  match stripSome e.siblingText with
  | some v => some v
  | none => stripSome e.parentNextText

/-- Whole per-element body of Method 1 of `extract_labeled_field`. -/
def elemValue (e : LabelElem) : Option String :=
  match elemColonValue e with
  | some v => some v
  | none => elemNearbyValue e

/-- Method 1 of `extract_labeled_field`: for each label in order, scan the
elements whose text contains the label and return the first value. -/
def method1 (labels : List String) (elems : List LabelElem) : Option String :=
  List.findSome? (fun l => List.findSome? (fun e =>
    if pyContains e.text l = true then elemValue e else none) elems) labels

/-- Method 2 (both scripts): table cells containing the label, value from
the following cell. -/
def method2 (labels : List String) (cells : List (String × Option String)) :
    Option String :=
  List.findSome? (fun l => List.findSome? (fun c =>
    if pyContains c.1 l = true then stripSome c.2 else none) cells) labels

/-- Method 3 (both scripts): definition lists; for each label, the first
`dd` text over the `dt`s containing the label, accepted when its trim is
non-empty. -/
def method3 (labels : List String) (dts : List (String × Option String)) :
    Option String :=
  List.findSome? (fun l =>
    match List.findSome? (fun d =>
        if pyContains d.1 l = true then d.2 else none) dts with
    | some dd => if pyStrip dd = "" then none else some (pyStrip dd)
    | none => none) labels

/-- startUpCrawler.py `StartupRegistrySpider.extract_labeled_field`. -/
def extract_labeled_field (labels : List String) (doc : LabelDoc) :
    Option String :=
  match method1 labels doc.elements with
  | some v => some v
  | none =>
    match method2 labels doc.tdCells with
    | some v => some v
    | none => method3 labels doc.dtEntries

/-- Method 1 of startup_crawler.py `extract_field_with_labels`: elements
whose text contains `label ++ ":"`, colon-split value only. -/
def labelColonValue (l : String) (elems : List LabelElem) : Option String :=
  List.findSome? (fun e =>
    if pyContains e.text (l ++ ":") = true then elemColonValue e else none)
    elems

/-- Method 2 of startup_crawler.py `extract_field_with_labels`: elements
whose text contains the label, sibling / container-next value. -/
def labelNearbyValue (l : String) (elems : List LabelElem) : Option String :=
  List.findSome? (fun e =>
    if pyContains e.text l = true then elemNearbyValue e else none) elems

/-- startup_crawler.py `StartupRegistrySpider.extract_field_with_labels`
(the first value the loader would record, `none` when the method falls
through without adding a value). -/
def extract_field_with_labels (labels : List String) (doc : LabelDoc) :
    Option String :=
  match List.findSome? (fun l =>
      match labelColonValue l doc.elements with
      | some v => some v
      | none => labelNearbyValue l doc.elements) labels with
  | some v => some v
  | none =>
    match method2 labels doc.tdCells with
    | some v => some v
    | none => method3 labels doc.dtEntries

/-- The region label synonyms configured in both Scrapy scripts. -/
def region_labels : List String :=
  ["Regione", "Region", "Territory"]

/-! ## Strategy cascades (startUpCrawler.py `extract_with_selectors`,
v3.py `extract_text_by_methods`) -/

/-- startUpCrawler.py `StartupRegistrySpider.extract_with_selectors`:
`cands` holds, per selector in priority order, the first matched content
(`response.css(selector).get()`). -/
def extract_with_selectors (cands : List (Option String)) : Option String :=
  List.findSome? stripSome cands

/-- Value of one method of v3.py `extract_text_by_methods`: the method's
element values (text or attribute, `none` for a null attribute) are scanned
for the first one whose trim is non-empty. -/
def methodValue (vals : List (Option String)) : Option String :=
  List.findSome? stripSome vals

/-- v3.py `StartupRegistryCrawler.extract_text_by_methods`: try every
method in order, then the BeautifulSoup label fallback (`fb` holds the
`parent.next_sibling` texts it would see), else return `""`. -/
def extract_text_by_methods (ms : List (List (Option String)))
    (fb : List String) : String :=
  match List.findSome? methodValue ms with
  | some v => v
  | none =>
    match List.findSome? (fun t => stripSome (some t)) fb with
    | some v => v
    | none => ""

/-- Modelled from the spec: "Field value is the first non-empty match
across all strategies in order 1→4" — the first non-empty trimmed
candidate, in strategy order. -/
def specFieldValue (cands : List (Option String)) : Option String :=
  (((cands.filterMap id).map pyStrip).filter (fun s => s ≠ "")).head?

/-! ## Email extraction

`mailtoLinks` is what `response.css('a[href^="mailto:"]::attr(href)').getall()`
returns: the mailto hrefs in document order.  `textMatches` is the list of
matches of the email regex over the raw page text, in order. -/

/-- Free-mail / placeholder domains filtered out by both Scrapy scripts. -/
def email_denylist : List String :=
  ["example.com", "gmail.com", "libero.it", "hotmail"]

/-- Shared regex-fallback preference: the non-denylisted matches first,
their first element if any, else the very first match. -/
def filteredEmails (ms : List String) : List String :=
  ms.filter (fun e => !(email_denylist.any (fun d => pyContains e.toLower d)))

/-- startUpCrawler.py lines 364-374: regex fallback for the email field. -/
def crawler_email_regex (ms : List String) : Option String :=
  match ms with
  | [] => none
  | m :: _ =>
    match filteredEmails ms with
    | e :: _ => some e
    | [] => some m

/-- startUpCrawler.py `parse_company`, step 6: first mailto link whose
address (after `replace('mailto:', '').strip()`) contains `'@'` and `'.'`,
else the regex fallback. -/
def parse_company_email (mailtoLinks textMatches : List String) :
    Option String :=
  match List.findSome? (fun link =>
      let e := pyStrip (pyRemoveAll link "mailto:")
      if '@' ∈ e.data ∧ '.' ∈ e.data then some e else none) mailtoLinks with
  | some e => some e
  | none => crawler_email_regex textMatches

/-- startup_crawler.py `StartupLoader.email_in`: strip, drop `mailto:`,
then keep only addresses with `'@'` and a dot after the last `'@'`. -/
def email_in (x : String) : Option String :=
  let x2 := pyRemoveAll (pyStrip x) "mailto:"
  if '@' ∈ x2.data ∧ '.' ∈ (afterLastAtL x2.data) then some x2 else none

/-- startup_crawler.py lines 456-463: regex fallback, fed through the
loader's `email_in` processor. -/
def loader_email_regexFallback (ms : List String) : Option String :=
  match filteredEmails ms with
  | e :: _ => email_in e
  | [] =>
    match ms with
    | m :: _ => email_in m
    | [] => none

/-- startup_crawler.py `parse_company`, step 5: the first mailto link is fed
through the loader (`email_in`); if it is dropped, the regex fallback values
are fed through the loader instead. -/
def loader_email_field (mailtoLinks textMatches : List String) :
    Option String :=
  match mailtoLinks with
  | link :: _ =>
    (match email_in link with
     | some e => some e
     | none => loader_email_regexFallback textMatches)
  | [] => loader_email_regexFallback textMatches

/-- v3.py `extract_company_info`, email step: `ms` are the results of the
five `email_methods` (the first one lists the mailto hrefs); a truthy
result has `mailto:` removed and is trimmed, otherwise the first raw regex
match from the page source is used (default `""`). -/
def v3_email_field (ms : List (List (Option String))) (fb : List String)
    (pageEmails : List String) : String :=
  let email := extract_text_by_methods ms fb
  if email = "" then pageEmails.headD ""
  else pyStrip (pyRemoveAll email "mailto:")

/-! ## Record sink (startUpCrawler.py `save_to_csv`, `StartupCsvPipeline`)

A CSV file is modelled as its list of rows (each a list of cell strings). -/

/-- startUpCrawler.py `StartupItem`: the scraped fields; `none` models a
field that was never set. -/
structure StartupItem where
  company_name : Option String
  creation_date : Option String
  region : Option String
  city : Option String
  description : Option String
  email : Option String
  phone : Option String
deriving DecidableEq

/-- Fixed CSV column order of startUpCrawler.py. -/
def csvFieldnames : List String :=
  ["company_name", "creation_date", "region",
   "city", "description", "email", "phone"]

/-- One CSV row: `item_dict.get(field, '')` per field, in column order. -/
def itemRow (it : StartupItem) : List String :=
  [it.company_name.getD "", it.creation_date.getD "", it.region.getD "",
   it.city.getD "", it.description.getD "", it.email.getD "",
   it.phone.getD ""]

/-- The CSV file right after spider/pipeline initialisation: the header,
written once. -/
def initCsvFile : List (List String) :=
  [csvFieldnames]

/-- startUpCrawler.py `StartupRegistrySpider.save_to_csv`: append one row. -/
def save_to_csv (file : List (List String)) (it : StartupItem) :
    List (List String) :=
  file ++ [itemRow it]

/-- startUpCrawler.py `StartupCsvPipeline.process_item`: append one row. -/
def process_item (file : List (List String)) (it : StartupItem) :
    List (List String) :=
  file ++ [itemRow it]

/-- File contents after a run of startUpCrawler.py in which `items` were
extracted: `parse_company` calls `save_to_csv` directly ("as a backup") and
the returned item is written again by the configured `StartupCsvPipeline`. -/
def runSpiderCsv (items : List StartupItem) : List (List String) :=
  items.foldl (fun f it => process_item (save_to_csv f it) it) initCsvFile

/-- File contents had only the pipeline (one append per item) written. -/
def runPipelineCsv (items : List StartupItem) : List (List String) :=
  items.foldl process_item initCsvFile

/-! ## Crawl frontier

startUpCrawler.py `parse_search_results` keeps a spider-wide
`processed_urls` set and yields a detail request only for unseen URLs;
v3.py `find_company_links` deduplicates with `list(set(companies))`
per listing page only. -/

/-- One listing page of startUpCrawler.py: emit the links not in
`processed_urls`, adding each emitted link to the set.  Returns the grown
set and the emitted requests in order. -/
def emitNewLinks (seen : List String) :
    List String → List String × List String
  | [] => (seen, [])
  | u :: us =>
    if u ∈ seen then emitNewLinks seen us
    else
      match emitNewLinks (u :: seen) us with
      | (s, es) => (s, u :: es)

/-- Detail requests emitted over a whole crawl of startUpCrawler.py: the
listing pages arrive in order and `processed_urls` persists across them. -/
def crawlEmitted (seen : List String) : List (List String) → List String
  | [] => []
  | p :: ps =>
    match emitNewLinks seen p with
    | (s, es) => es ++ crawlEmitted s ps

/-- v3.py `find_company_links`, final step: `list(set(companies))` —
per-page deduplication with no cross-page state. -/
def v3_find_company_links_dedup (companies : List String) : List String :=
  companies.dedup

/-- Detail links processed over a whole crawl of v3.py: each page is
deduplicated on its own, nothing is remembered across pages. -/
def v3_crawl_processed (pages : List (List String)) : List String :=
  pages.flatMap v3_find_company_links_dedup

/-! ## Pagination loops -/

/-- v2.py `crawl` / v3.py `crawl` main loop: `while current_url and
current_page <= max_pages`, with `next` abstracting "fetch the page and
look up its next-page link".  Returns the listing pages fetched, in
order; the `Nat` argument is `max_pages` counted down. -/
def crawl_pages (next : String → Option String) :
    Nat → String → List String
  | 0, _ => []
  | n + 1, u =>
    u :: (match next u with
          | some u2 => crawl_pages next n u2
          | none => [])

/-- startup_crawler.py `parse_search_results` pagination: every found
next-page link is followed unconditionally; the only guard is the duplicate
filter (no page-count ceiling exists in the script).  The fuel argument is
an artifact of totality in Lean — the source recursion is unbounded. -/
def scrapy_paginate (next : String → Option String) :
    Nat → List String → String → List String
  | 0, _, _ => []
  | n + 1, seen, u =>
    if u ∈ seen then []
    else
      u :: (match next u with
            | some u2 => scrapy_paginate next n (u :: seen) u2
            | none => [])

/-- The largest pagination ceiling configured anywhere in the repository:
v3.py `main` calls `crawl(max_pages=10, ...)` (v2.py `main` uses 5). -/
def configured_max_pages : Nat := 10

/-- An eleven-page chain of fresh next-page links, used to drive the
Scrapy pagination model past every configured ceiling. -/
def chainNext (u : String) : Option String :=
  List.lookup u
    [("p1", "p2"), ("p2", "p3"), ("p3", "p4"), ("p4", "p5"), ("p5", "p6"),
     ("p6", "p7"), ("p7", "p8"), ("p8", "p9"), ("p9", "p10"),
     ("p10", "p11")]

/-! ## Next-page lookup

Views of a results page, one per implementation, holding exactly what each
routine's selector queries would return.  Resolution of a found href
against the base URL (`urljoin`) only rewrites a found link and never turns
"no link" into a link, so it is left out of the models. -/

/-- What startUpCrawler.py `get_next_page` reads: per "next" selector the
href attributes of its matches, per active-page selector the first text of
its first match, and for `a:contains("<n>")` the first href. -/
structure NextPageView where
  nextSelectorHrefs : List (List (Option String))
  activeTexts : List (Option String)
  numberedHref : Nat → Option String

/-- The active-page number: first active-selector text that is a digit
string after stripping (`current_text.strip().isdigit()`), parsed. -/
def currentPageOf (texts : List (Option String)) : Option Nat :=
  List.findSome? (fun t? =>
    match t? with
    | some t =>
      if pyIsDigits (pyStrip t) = true then some (strToNat (pyStrip t))
      else none
    | none => none) texts

/-- startUpCrawler.py `StartupRegistrySpider.get_next_page`. -/
def get_next_page (v : NextPageView) : Option String :=
  match List.findSome? (fun hrefs => List.findSome? truthyOpt hrefs)
      v.nextSelectorHrefs with
  | some h => some h
  | none =>
    match currentPageOf v.activeTexts with
    | some c => truthyOpt (v.numberedHref (c + 1))
    | none => none

/-- v2.py `StartupRegistryCrawler.get_next_page_url`: the argument is the
result of `select_one('.pagination .next a') or select_one('a.next-page')`
together with that element's `href` attribute. -/
def get_next_page_url (anchor : Option (Option String)) : Option String :=
  match anchor with
  | some h? => truthyOpt h?
  | none => none

/-- What v3.py `find_next_page_link` reads: per "next" selector the
(displayed, enabled, href) triples of its matches, the text of the active
pagination element when one exists, and the (text, href) pairs of the
`.pagination a` elements. -/
structure V3NextView where
  selectorElems : List (List (Bool × Bool × Option String))
  activeText : Option String
  pageAnchors : List (String × Option String)

/-- Per-element test of v3 Method 1: displayed, enabled, truthy href. -/
def v3ElemHref (t : Bool × Bool × Option String) : Option String :=
  if t.1 = true ∧ t.2.1 = true then truthyOpt t.2.2 else none

/-- v3 Method 2 inner loop: first `.pagination a` anchor whose numeric text
equals the target page number; its href is returned as-is (the loop breaks
even when the href is null). -/
def v3PageNumScan (target : Nat) :
    List (String × Option String) → Option String
  | [] => none
  | a :: rest =>
    if pyIsDigits (pyStrip a.1) = true then
      (if strToNat (pyStrip a.1) = target then a.2
       else v3PageNumScan target rest)
    else v3PageNumScan target rest

/-- v3.py `StartupRegistryCrawler.find_next_page_link`. -/
def find_next_page_link (v : V3NextView) : Option String :=
  match List.findSome? (fun elems => List.findSome? v3ElemHref elems)
      v.selectorElems with
  | some h => some h
  | none =>
    match v.activeText with
    | some t =>
      if pyIsDigits (pyStrip t) = true then
        v3PageNumScan (strToNat (pyStrip t) + 1) v.pageAnchors
      else none
    | none => none

/-! ## Fetcher and robots.txt (v2.py) -/

/-- Robots rules of the origin, by agent group: the `User-agent: *` group
(always present in the model; `fun _ => true` when absent), and, when
robots.txt has a group matching the crawler's own user-agent string, that
group.  `true` means the URL may be fetched. -/
structure RobotsTxt where
  defaultAllow : String → Bool
  crawlerAllow : Option (String → Bool)

/-- v2.py `StartupRegistryCrawler.can_fetch`: the code queries
`robot_parser.can_fetch('*', url)`, i.e. only the wildcard group. -/
def can_fetch (r : RobotsTxt) (url : String) : Bool :=
  r.defaultAllow url

/-- Whether robots.txt disallows `url` for the crawler's actual user agent
(the specific group when one matches the UA, else the wildcard group) —
this is the robots semantics the claim refers to. -/
def disallowedForCrawlerUA (r : RobotsTxt) (url : String) : Bool :=
  match r.crawlerAllow with
  | some g => !(g url)
  | none => !(r.defaultAllow url)

/-- v2.py `StartupRegistryCrawler.get_page`: skip when `can_fetch` denies,
else issue the request (`net url = some (status, body)`, `none` for a
transport error) and accept only status 200.  The second component counts
HTTP requests issued. -/
def get_page (r : RobotsTxt) (net : String → Option (Nat × String))
    (url : String) : Option String × Nat :=
  if can_fetch r url = true then
    match net url with
    | some (status, body) => (if status = 200 then some body else none, 1)
    | none => (none, 1)
  else (none, 0)

/-! ## Per-record processing boundary (v2.py / v3.py `crawl`)

Processing one detail link either raises (`Except.error`), yields no record
(`Except.ok none`: page failed to load or nothing was extracted — the
anticipated failures that `get_page` / `extract_company_info` turn into
`None`), or yields a record. -/

/-- v3.py `crawl` inner loop: each link is processed inside
`try/except`, an exception is logged and the loop continues. -/
def v3_process_links {α ε ρ : Type} (process : α → Except ε (Option ρ)) :
    List α → List ρ
  | [] => []
  | l :: ls =>
    match process l with
    | Except.ok (some r) => r :: v3_process_links process ls
    | Except.ok none => v3_process_links process ls
    | Except.error _ => v3_process_links process ls

/-- v3.py `crawl`: the `finally` block always saves whatever was
collected; `some` is the persisted record list. -/
def v3_run {α ε ρ : Type} (process : α → Except ε (Option ρ))
    (links : List α) : Option (List ρ) :=
  some (v3_process_links process links)

/-- v2.py `crawl` inner loop (lines 191-196): no try/except at the record
boundary, so an exception propagates out of the loop. -/
def v2_process_links {α ε ρ : Type} (process : α → Except ε (Option ρ)) :
    List α → Except ε (List ρ)
  | [] => Except.ok []
  | l :: ls =>
    match process l with
    | Except.error e => Except.error e
    | Except.ok r? =>
      match v2_process_links process ls with
      | Except.error e => Except.error e
      | Except.ok rs => Except.ok (r?.toList ++ rs)

/-- v2.py `crawl`: `save_to_csv` runs only after the loop finishes, so an
escaped exception aborts the run with nothing persisted (`none`). -/
def v2_run {α ε ρ : Type} (process : α → Except ε (Option ρ))
    (links : List α) : Option (List ρ) :=
  match v2_process_links process links with
  | Except.ok rs => some rs
  | Except.error _ => none

/-- The record kept by `v3_process_links` for one link, if any. -/
def v3_keptRecord {α ε ρ : Type} (process : α → Except ε (Option ρ))
    (l : α) : Option ρ :=
  match process l with
  | Except.ok (some r) => some r
  | Except.ok none => none
  | Except.error _ => none

/-! ## Scrapy duplicate filter (startup_crawler.py `CacheURLFilter`) -/

/-- A Scrapy request as `CacheURLFilter.request_seen` sees it: the parsed
URL components and the optional `company_fingerprint` meta entry. -/
structure ScrapyRequest where
  scheme : String
  host : String
  path : String
  query : String
  fingerprintMeta : Option String
deriving DecidableEq

/-- The full request URL (query included). -/
def requestUrl (r : ScrapyRequest) : String :=
  r.scheme ++ "://" ++ r.host ++ r.path ++
    (if r.query = "" then "" else "?" ++ r.query)

/-- The query-stripped base URL:
`f"{parsed_url.scheme}://{parsed_url.netloc}{parsed_url.path}"`. -/
def baseUrl (r : ScrapyRequest) : String :=
  r.scheme ++ "://" ++ r.host ++ r.path

/-- The company-page URL markers of `CacheURLFilter.request_seen`. -/
def company_markers : List String :=
  ["/company/", "/startup/", "/detail/", "/scheda/", "/impresa/"]

/-- State of the duplicate filter: the query-stripped seen set, the
registered content fingerprints, and the parent `RFPDupeFilter`'s
fingerprint set (modelled by full URL). -/
structure DupeFilterState where
  seen_urls : List String
  company_fingerprints : List String
  rfp_seen : List String
deriving DecidableEq

/-- The company-fingerprint early-exit test of `request_seen`. -/
def metaFpSeen (st : DupeFilterState) (r : ScrapyRequest) : Bool :=
  (company_markers.any (fun m => pyContains (requestUrl r) m)) &&
    (match r.fingerprintMeta with
     | some fp => decide (fp ∈ st.company_fingerprints)
     | none => false)

/-- startup_crawler.py `CacheURLFilter.request_seen`: `true` means the
request is already seen and is dropped (not fetched). -/
def request_seen (st : DupeFilterState) (r : ScrapyRequest) :
    Bool × DupeFilterState :=
  if baseUrl r ∈ st.seen_urls then (true, st)
  else if metaFpSeen st r = true then (true, st)
  else
    if requestUrl r ∈ st.rfp_seen then
      (true, ⟨baseUrl r :: st.seen_urls, st.company_fingerprints,
              st.rfp_seen⟩)
    else
      (false, ⟨baseUrl r :: st.seen_urls, st.company_fingerprints,
               requestUrl r :: st.rfp_seen⟩)

/-- Run the filter over a sequence of requests, keeping only the state. -/
def runRequests (st : DupeFilterState) : List ScrapyRequest → DupeFilterState
  | [] => st
  | r :: rs => runRequests (request_seen st r).2 rs

/-! ## Helper lemmas -/

theorem strEta (s : String) : (⟨s.data⟩ : String) = s := rfl

theorem colon_data : (":" : String).data = [':'] := rfl

theorem findSome?_eq_none_of {α β : Type} (f : α → Option β) (l : List α)
    (h : ∀ a ∈ l, f a = none) : List.findSome? f l = none :=
  List.findSome?_eq_none_iff.mpr h

theorem infix_of_pre {l₁ l₂ : List Char} (h : l₁ <+: l₂) : l₁ <:+: l₂ := by
  obtain ⟨t, rfl⟩ := h
  exact ⟨[], t, by simp⟩

theorem hasSubL_iff (pat l : List Char) :
    hasSubL pat l = true ↔ pat <:+: l := by
  induction l with
  | nil =>
    simp [hasSubL, List.infix_nil, List.isEmpty_iff]
  | cons c cs ih =>
    simp [hasSubL, List.infix_cons_iff, ih, List.isPrefixOf_iff_prefix]

theorem pyContains_append_colon (l v : String) :
    pyContains (l ++ ":" ++ v) l = true := by
  rw [pyContains, hasSubL_iff, String.data_append, String.data_append]
  exact infix_of_pre ⟨":".data ++ v.data, by simp⟩

theorem pyContains_append_colon' (l v : String) :
    pyContains (l ++ ":" ++ v) (l ++ ":") = true := by
  rw [pyContains, hasSubL_iff, String.data_append]
  exact infix_of_pre ⟨v.data, rfl⟩

theorem pyContains_colon_mono (s x : String)
    (h : pyContains s x = false) : pyContains s (x ++ ":") = false := by
  by_contra hc
  rw [Bool.not_eq_false, pyContains, hasSubL_iff, String.data_append] at hc
  rw [Bool.eq_false_iff] at h
  apply h
  rw [pyContains, hasSubL_iff]
  exact ( infix_of_pre ⟨":".data, rfl⟩).trans hc

theorem mem_colon_append (l v : String) :
    ':' ∈ (l ++ ":" ++ v).data := by
  rw [String.data_append, String.data_append, colon_data]
  simp

theorem afterFirstColonL_append (ld rest : List Char) (h : ':' ∉ ld) :
    afterFirstColonL (ld ++ ':' :: rest) = rest := by
  induction ld with
  | nil => simp [afterFirstColonL]
  | cons c cs ih =>
    rw [List.mem_cons, not_or] at h
    rw [List.cons_append, afterFirstColonL, if_neg (fun hc => h.1 hc.symm)]
    exact ih h.2

theorem afterFirstColon_label (l v : String) (h : ':' ∉ l.data) :
    afterFirstColon (l ++ ":" ++ v) = v := by
  rw [afterFirstColon, String.data_append, String.data_append, colon_data]
  rw [show l.data ++ [':'] ++ v.data = l.data ++ ':' :: v.data by simp]
  rw [afterFirstColonL_append l.data v.data h]

theorem dropWhile_length_le (p : Char → Bool) (l : List Char) :
    (List.dropWhile p l).length ≤ l.length := by
  induction l with
  | nil => simp
  | cons c t ih =>
    rw [List.dropWhile_cons]
    split
    · exact Nat.le_succ_of_le ih
    · simp

theorem dropWhile_self_head (p : Char → Bool) (c : Char) (t : List Char)
    (h : List.dropWhile p (c :: t) = c :: t) : p c = false := by
  by_contra hc
  rw [Bool.not_eq_false] at hc
  rw [List.dropWhile_cons, if_pos hc] at h
  have := dropWhile_length_le p t
  rw [h] at this
  simp at this

theorem pyStrip_eq_self (a : String)
    (h1 : a.data.dropWhile Char.isWhitespace = a.data)
    (h2 : a.data.reverse.dropWhile Char.isWhitespace = a.data.reverse) :
    pyStrip a = a := by
  rw [pyStrip, pyStripL, h1, h2, List.reverse_reverse]

theorem mailto_data :
    ("mailto:" : String).data = 'm' :: "ailto:".data := rfl

theorem pyStrip_mailto (a : String) (ha : a ≠ "")
    (h2 : a.data.reverse.dropWhile Char.isWhitespace = a.data.reverse) :
    pyStrip ("mailto:" ++ a) = "mailto:" ++ a := by
  have hd : ("mailto:" ++ a).data = 'm' :: ("ailto:".data ++ a.data) := by
    rw [String.data_append, mailto_data]
    rfl
  have hne : a.data ≠ [] := by
    intro hn
    apply ha
    have : a = ⟨a.data⟩ := (strEta a).symm
    rw [hn] at this
    exact this
  obtain ⟨c, t, hct⟩ := List.exists_cons_of_ne_nil (l := a.data.reverse)
    (by simpa using hne)
  have hc : Char.isWhitespace c = false := by
    apply dropWhile_self_head Char.isWhitespace c t
    rw [← hct]
    exact h2
  rw [pyStrip, pyStripL, hd]
  rw [List.dropWhile_cons, if_neg (by decide)]
  rw [← hd, show ("mailto:" ++ a).data.reverse
      = c :: (t ++ ("mailto:" : String).data.reverse) by
    rw [String.data_append, List.reverse_append, hct]
    simp]
  rw [List.dropWhile_cons, if_neg (by simp [hc])]
  rw [show c :: (t ++ ("mailto:" : String).data.reverse)
      = ("mailto:" ++ a).data.reverse by
    rw [String.data_append, List.reverse_append, hct]
    simp]
  rw [List.reverse_reverse]

theorem removeAllAux_no_sub (pat : List Char) :
    ∀ fuel l, l.length ≤ fuel → hasSubL pat l = false →
      removeAllAux pat fuel l = l := by
  intro fuel
  induction fuel with
  | zero =>
    intro l _ _
    cases l <;> rfl
  | succ f ih =>
    intro l hl hs
    cases l with
    | nil => rfl
    | cons c cs =>
      rw [hasSubL, Bool.or_eq_false_iff] at hs
      rw [removeAllAux, if_neg (fun hp => by
        rw [hs.1] at hp
        exact Bool.false_ne_true hp.1)]
      rw [ih cs (by simpa using Nat.le_of_succ_le_succ hl) hs.2]

theorem removeAllAux_strip (pat rest : List Char) (hp : pat ≠ [])
    (hs : hasSubL pat rest = false) :
    ∀ fuel, pat.length + rest.length ≤ fuel →
      removeAllAux pat fuel (pat ++ rest) = rest := by
  intro fuel hf
  obtain ⟨p, p', rfl⟩ := List.exists_cons_of_ne_nil hp
  cases fuel with
  | zero => simp at hf
  | succ f =>
    rw [List.cons_append, removeAllAux,
      if_pos ⟨by
        rw [ List.isPrefixOf_iff_prefix]
        exact ⟨rest, by simp⟩, hp⟩]
    rw [show (p :: p').length - 1 = p'.length by simp]
    rw [List.drop_left p' rest]
    apply removeAllAux_no_sub (p :: p') f rest _ hs
    simp at hf
    omega

theorem pyRemoveAll_mailto (a : String)
    (hns : pyContains a "mailto:" = false) :
    pyRemoveAll ("mailto:" ++ a) "mailto:" = a := by
  rw [pyRemoveAll, String.data_append]
  rw [removeAllAux_strip ("mailto:" : String).data a.data (by decide) hns
    (("mailto:" : String).data ++ a.data).length (by simp; omega)]

theorem findSome?_stripSome_spec (cands : List (Option String)) :
    List.findSome? stripSome cands = specFieldValue cands := by
  induction cands with
  | nil => rfl
  | cons c t ih =>
    cases c with
    | none =>
      rw [List.findSome?_cons]
      simp only [stripSome]
      rw [ih, specFieldValue, specFieldValue]
      simp [List.filterMap_cons]
    | some s =>
      rw [List.findSome?_cons]
      by_cases h : pyStrip s = ""
      · rw [show stripSome (some s) = none by simp [stripSome, h]]
        rw [ih, specFieldValue, specFieldValue]
        simp [List.filterMap_cons, List.filter_cons, h]
      · rw [show stripSome (some s) = some (pyStrip s) by
          simp [stripSome, h]]
        rw [specFieldValue]
        simp [List.filterMap_cons, List.filter_cons, h]

theorem findSome?_methodValue_flatten (ms : List (List (Option String))) :
    List.findSome? methodValue ms =
      List.findSome? stripSome ms.flatten := by
  induction ms with
  | nil => rfl
  | cons m t ih =>
    rw [List.flatten_cons, List.findSome?_append, List.findSome?_cons, ← ih]
    cases h : methodValue m with
    | some v => rw [show List.findSome? stripSome m = some v from h]; rfl
    | none => rw [show List.findSome? stripSome m = none from h]; rfl

/-! ## Claim C3 -/

/-- C3: for every detail document and target field, the field extractor
evaluates its strategies in their fixed priority order and returns the
first non-empty trimmed match; when no strategy matches it returns an
empty/null value and extraction completes normally (the functions are
total).  Stated as refinements: startUpCrawler.py `extract_with_selectors`
equals the spec's first-non-empty-match rule over its selector candidates,
and v3.py `extract_text_by_methods` equals that rule over its methods
followed by the soup fallback, defaulting to `""`. -/
theorem c3_strategy_cascade (cands : List (Option String))
    (ms : List (List (Option String))) (fb : List String) :
    extract_with_selectors cands = specFieldValue cands ∧
    extract_text_by_methods ms fb =
      (specFieldValue (ms.flatten ++ fb.map some)).getD "" := by
  constructor
  · exact findSome?_stripSome_spec cands
  · rw [← findSome?_stripSome_spec, List.findSome?_append]
    rw [List.findSome?_map some fb]
    rw [extract_text_by_methods, ← findSome?_methodValue_flatten]
    cases h : List.findSome? methodValue ms with
    | some v => rfl
    | none =>
      cases h2 : List.findSome? (fun t => stripSome (some t)) fb with
      | some v =>
        rw [show List.findSome? (stripSome ∘ some) fb = some v from h2]
        rfl
      | none =>
        rw [show List.findSome? (stripSome ∘ some) fb = none from h2]
        rfl

/-! ## Claim C1 -/

/-- C1, amended.  If the first element that the extractor's label-priority,
document-order search reaches (no earlier label synonym occurs anywhere,
no earlier element contains the matched label) carries a text node
`label ++ ":" ++ value` with non-empty trimmed value, then both
`extract_labeled_field` and `extract_field_with_labels` return exactly the
substring after the first colon, trimmed. -/
theorem c1_labeled_field_first_match (L A B : List String) (l : String)
    (d : LabelDoc) (E F : List LabelElem) (e : LabelElem) (v : String)
    (hL : L = A ++ l :: B)
    (hA : ∀ x ∈ A, ∀ y ∈ d.elements, pyContains y.text x = false)
    (hE : d.elements = E ++ e :: F)
    (hB : ∀ y ∈ E, pyContains y.text l = false)
    (ht : e.text = l ++ ":" ++ v)
    (hl : ':' ∉ l.data)
    (hv : pyStrip v ≠ "") :
    extract_labeled_field L d = some (pyStrip v) ∧
    extract_field_with_labels L d = some (pyStrip v) := by
  have hcv : elemColonValue e = some (pyStrip v) := by
    rw [elemColonValue, if_pos (show ':' ∈ e.text.data by
      rw [ht]; exact mem_colon_append l v)]
    rw [ht, afterFirstColon_label l v hl, if_neg hv]
  have hev : elemValue e = some (pyStrip v) := by
    rw [elemValue, hcv]
  constructor
  · have hm1 : method1 L d.elements = some (pyStrip v) := by
      rw [hL, method1, List.findSome?_append]
      rw [findSome?_eq_none_of _ A (fun x hx => findSome?_eq_none_of _ _
        (fun y hy => by
          have hf := hA x hx y hy
          rw [if_neg (by simp [hf])]))]
      rw [Option.none_or]
      simp only [List.findSome?_cons]
      rw [hE, List.findSome?_append]
      rw [findSome?_eq_none_of _ E (fun y hy => by
        have hf := hB y hy
        rw [if_neg (by simp [hf])])]
      rw [Option.none_or]
      simp only [List.findSome?_cons]
      rw [if_pos (show pyContains e.text l = true by
        rw [ht]; exact pyContains_append_colon l v)]
      rw [hev]
    rw [extract_labeled_field, hm1]
  · have hlc : labelColonValue l d.elements = some (pyStrip v) := by
      rw [labelColonValue, hE, List.findSome?_append]
      rw [findSome?_eq_none_of _ E (fun y hy => by
        have hf := pyContains_colon_mono y.text l (hB y hy)
        rw [if_neg (by simp [hf])])]
      rw [Option.none_or]
      simp only [List.findSome?_cons]
      rw [if_pos (show pyContains e.text (l ++ ":") = true by
        rw [ht]; exact pyContains_append_colon' l v)]
      rw [hcv]
    have houter : List.findSome? (fun x =>
        match labelColonValue x d.elements with
        | some w => some w
        | none => labelNearbyValue x d.elements) L = some (pyStrip v) := by
      rw [hL, List.findSome?_append]
      rw [findSome?_eq_none_of _ A (fun x hx => by
        rw [show labelColonValue x d.elements = none from
          findSome?_eq_none_of _ _ (fun y hy => by
            have hf := pyContains_colon_mono y.text x (hA x hx y hy)
            rw [if_neg (by simp [hf])])]
        rw [show labelNearbyValue x d.elements = none from
          findSome?_eq_none_of _ _ (fun y hy => by
            have hf := hA x hx y hy
            rw [if_neg (by simp [hf])])])]
      rw [Option.none_or]
      simp only [List.findSome?_cons]
      rw [hlc]
    rw [extract_field_with_labels, houter]

/-- C1, counterexample to the claim as stated.  The document contains an
element whose text node is exactly of the form "Label: value"
("Regione: Lombardia", value trimming to "Lombardia"), yet
`extract_labeled_field` returns "Lazio": an earlier element merely
containing the label word (with a following sibling) wins first. -/
theorem c1_counterexample :
    (⟨"Regione: Lombardia", none, none⟩ : LabelElem) ∈
      (⟨[⟨"Regione", some "Lazio", none⟩,
         ⟨"Regione: Lombardia", none, none⟩], [], []⟩ :
        LabelDoc).elements ∧
    ("Regione: Lombardia" : String) = "Regione" ++ ":" ++ " Lombardia" ∧
    pyStrip " Lombardia" = "Lombardia" ∧
    extract_labeled_field region_labels
      ⟨[⟨"Regione", some "Lazio", none⟩,
        ⟨"Regione: Lombardia", none, none⟩], [], []⟩ = some "Lazio" ∧
    ("Lazio" : String) ≠ "Lombardia" := by
  decide

/-- C1 witness: on a document whose only label occurrence is the single
text node "Regione: Lombardia", both extractors yield region
"Lombardia". -/
theorem c1_witness :
    extract_labeled_field region_labels
      ⟨[⟨"Regione: Lombardia", none, none⟩], [], []⟩ = some "Lombardia" ∧
    extract_field_with_labels region_labels
      ⟨[⟨"Regione: Lombardia", none, none⟩], [], []⟩ = some "Lombardia" := by
  have h := c1_labeled_field_first_match region_labels []
    ["Region", "Territory"] "Regione"
    ⟨[⟨"Regione: Lombardia", none, none⟩], [], []⟩ [] []
    ⟨"Regione: Lombardia", none, none⟩ " Lombardia"
    rfl
    (fun x hx => absurd hx (List.not_mem_nil x))
    rfl
    (fun y hy => absurd hy (List.not_mem_nil y))
    (by decide) (by decide) (by decide)
  refine ⟨h.1.trans ?_, h.2.trans ?_⟩ <;> decide

/-! ## Claim C2 -/

/-- C2, amended.  When the first mailto link's address `a` (no surrounding
whitespace, no nested "mailto:", containing `'@'` and a `'.'` both anywhere
and after the last `'@'`) passes the scripts' basic validation, all three
implementations produce exactly that address: startUpCrawler.py
`parse_company`, the startup_crawler.py loader pipeline, and v3.py
`extract_company_info`.  Links failing the validation are skipped (see the
counterexample). -/
theorem c2_email_first_valid_mailto (a : String) (rest tms fb pms : List String)
    (hs : List (Option String)) (mrest : List (List (Option String)))
    (ha : a ≠ "")
    (h1 : a.data.dropWhile Char.isWhitespace = a.data)
    (h2 : a.data.reverse.dropWhile Char.isWhitespace = a.data.reverse)
    (hns : pyContains a "mailto:" = false)
    (hat : '@' ∈ a.data)
    (hdot : '.' ∈ a.data)
    (hdot2 : '.' ∈ afterLastAtL a.data) :
    parse_company_email (("mailto:" ++ a) :: rest) tms = some a ∧
    loader_email_field (("mailto:" ++ a) :: rest) tms = some a ∧
    v3_email_field ((some ("mailto:" ++ a) :: hs) :: mrest) fb pms = a := by
  have hstrip_a : pyStrip a = a := pyStrip_eq_self a h1 h2
  have hstrip_m : pyStrip ("mailto:" ++ a) = "mailto:" ++ a :=
    pyStrip_mailto a ha h2
  have hrm : pyRemoveAll ("mailto:" ++ a) "mailto:" = a :=
    pyRemoveAll_mailto a hns
  have hmne : ("mailto:" ++ a) ≠ "" := by
    intro h
    have hd := congrArg String.data h
    rw [String.data_append, mailto_data] at hd
    simp at hd
  refine ⟨?_, ?_, ?_⟩
  · rw [parse_company_email]
    simp only [List.findSome?_cons, hrm, hstrip_a]
    rw [if_pos ⟨hat, hdot⟩]
  · have hei : email_in ("mailto:" ++ a) = some a := by
      simp only [email_in, hstrip_m, hrm]
      rw [if_pos ⟨hat, hdot2⟩]
    simp only [loader_email_field, hei]
  · have hext : extract_text_by_methods
        ((some ("mailto:" ++ a) :: hs) :: mrest) fb = "mailto:" ++ a := by
      have hmv : methodValue (some ("mailto:" ++ a) :: hs) =
          some ("mailto:" ++ a) := by
        rw [methodValue]
        simp only [List.findSome?_cons]
        rw [show stripSome (some ("mailto:" ++ a)) =
            some ("mailto:" ++ a) by
          simp only [stripSome]
          rw [hstrip_m, if_neg hmne]]
      rw [extract_text_by_methods]
      simp only [List.findSome?_cons, hmv]
    simp only [v3_email_field, hext]
    rw [if_neg hmne, hrm, hstrip_a]

/-- C2, counterexample to the claim as stated.  The first mailto link's
address "notanemail" (prefix removed, trimmed) fails the `'@'`/`'.'`
validation, so startUpCrawler.py skips it and returns the second link's
address instead of the first one. -/
theorem c2_counterexample :
    parse_company_email ["mailto:notanemail", "mailto:info@acme.it"] [] =
      some "info@acme.it" ∧
    pyStrip (pyRemoveAll "mailto:notanemail" "mailto:") = "notanemail" ∧
    ("info@acme.it" : String) ≠ "notanemail" := by
  decide

/-- C2 witness: a document whose first mailto link is
"mailto:info@acme.it" yields email "info@acme.it" in all three
implementations. -/
theorem c2_witness :
    parse_company_email ["mailto:info@acme.it"] [] = some "info@acme.it" ∧
    loader_email_field ["mailto:info@acme.it"] [] = some "info@acme.it" ∧
    v3_email_field [[some "mailto:info@acme.it"]] [] [] = "info@acme.it" := by
  have h := c2_email_first_valid_mailto "info@acme.it" [] [] [] [] [] []
    (by decide) (by decide) (by decide) (by decide) (by decide) (by decide)
    (by decide)
  exact h

/-! ## Claim C4 -/

theorem emitNewLinks_inv (us : List String) : ∀ seen : List String,
    (emitNewLinks seen us).2.Nodup ∧
    (∀ u ∈ (emitNewLinks seen us).2, u ∉ seen) ∧
    (∀ u ∈ (emitNewLinks seen us).2, u ∈ (emitNewLinks seen us).1) ∧
    (∀ x ∈ seen, x ∈ (emitNewLinks seen us).1) := by
  induction us with
  | nil =>
    intro seen
    refine ⟨List.nodup_nil, ?_, ?_, ?_⟩ <;> simp [emitNewLinks]
  | cons u us ih =>
    intro seen
    by_cases hu : u ∈ seen
    · rw [show emitNewLinks seen (u :: us) = emitNewLinks seen us by
        rw [emitNewLinks, if_pos hu]]
      exact ih seen
    · obtain ⟨hnd, hfresh, hsub, hgrow⟩ := ih (u :: seen)
      rcases hr : emitNewLinks (u :: seen) us with ⟨s, es⟩
      rw [hr] at hnd hfresh hsub hgrow
      have hrw : emitNewLinks seen (u :: us) = (s, u :: es) := by
        rw [emitNewLinks, if_neg hu, hr]
      rw [hrw]
      refine ⟨?_, ?_, ?_, ?_⟩
      · rw [List.nodup_cons]
        exact ⟨fun hin => (hfresh u hin) (List.mem_cons_self u seen), hnd⟩
      · intro w hw
        rcases List.mem_cons.mp hw with rfl | hw2
        · exact hu
        · intro hws
          exact (hfresh w hw2) (List.mem_cons_of_mem u hws)
      · intro w hw
        rcases List.mem_cons.mp hw with rfl | hw2
        · exact hgrow w (List.mem_cons_self w seen)
        · exact hsub w hw2
      · intro x hx
        exact hgrow x (List.mem_cons_of_mem u hx)

theorem crawlEmitted_inv (ps : List (List String)) : ∀ seen : List String,
    (crawlEmitted seen ps).Nodup ∧
    (∀ u ∈ crawlEmitted seen ps, u ∉ seen) := by
  induction ps with
  | nil =>
    intro seen
    simp [crawlEmitted]
  | cons p ps ih =>
    intro seen
    obtain ⟨hnd, hfresh, hsub, hgrow⟩ := emitNewLinks_inv p seen
    rcases hr : emitNewLinks seen p with ⟨s, es⟩
    rw [hr] at hnd hfresh hsub hgrow
    obtain ⟨hnd2, hfresh2⟩ := ih s
    have hrw : crawlEmitted seen (p :: ps) = es ++ crawlEmitted s ps := by
      rw [crawlEmitted, hr]
    rw [hrw]
    constructor
    · exact hnd.append hnd2
        (fun w hw hw2 => (hfresh2 w hw2) (hsub w hw))
    · intro u hu
      rcases List.mem_append.mp hu with h | h
      · exact hfresh u h
      · intro hus
        exact (hfresh2 u h) (hgrow u hus)

/-- C4, amended.  In startUpCrawler.py the spider-wide `processed_urls` set
makes the emitted detail requests pairwise distinct across the whole crawl
(duplicates within and across listing pages are dropped); in v3.py only
each single listing page is deduplicated (`list(set(companies))`) — see the
counterexample for the cross-page failure there. -/
theorem c4_frontier_emits_once (ps : List (List String)) (p : List String) :
    (crawlEmitted [] ps).Nodup ∧ (v3_find_company_links_dedup p).Nodup :=
  ⟨(crawlEmitted_inv ps []).1, List.nodup_dedup p⟩

/-- C4, counterexample to the claim as stated.  In v3.py a detail URL
listed on two different listing pages is processed twice: nothing is
"dropped by the seen-URL set" because no cross-page seen set exists. -/
theorem c4_counterexample :
    v3_crawl_processed [["u"], ["u"]] = ["u", "u"] ∧
    ¬ (v3_crawl_processed [["u"], ["u"]]).Nodup := by
  decide

/-! ## Claim C5 -/

theorem runSpider_foldl (items : List StartupItem) :
    ∀ acc : List (List String),
      items.foldl (fun f it => process_item (save_to_csv f it) it) acc =
        acc ++ items.flatMap (fun it => [itemRow it, itemRow it]) := by
  induction items with
  | nil => intro acc; simp
  | cons it its ih =>
    intro acc
    rw [List.foldl_cons, ih]
    simp [process_item, save_to_csv]

theorem runPipeline_foldl (items : List StartupItem) :
    ∀ acc : List (List String),
      items.foldl process_item acc = acc ++ items.map itemRow := by
  induction items with
  | nil => intro acc; simp
  | cons it its ih =>
    intro acc
    rw [List.foldl_cons, ih]
    simp [process_item]

theorem flatMap_pair_length (its : List StartupItem) :
    (its.flatMap (fun it => [itemRow it, itemRow it])).length =
      2 * its.length := by
  induction its with
  | nil => rfl
  | cons it rest ih =>
    rw [List.flatMap_cons, List.length_append, ih]
    simp
    omega

/-- C5, amended.  Each record is written once by `parse_company`'s direct
`save_to_csv` "backup" call and once more by the configured
`StartupCsvPipeline`, so a run over N fully-populated records leaves one
header row followed by 2N data rows; restricted to either sink alone the
file is exactly the header followed by one row per record, columns in the
declared fixed order. -/
theorem c5_csv_rows (items : List StartupItem) :
    runSpiderCsv items =
      csvFieldnames :: items.flatMap (fun it => [itemRow it, itemRow it]) ∧
    (runSpiderCsv items).length = 1 + 2 * items.length ∧
    runPipelineCsv items = csvFieldnames :: items.map itemRow ∧
    (runPipelineCsv items).length = 1 + items.length := by
  have h1 : runSpiderCsv items =
      csvFieldnames :: items.flatMap (fun it => [itemRow it, itemRow it]) := by
    rw [runSpiderCsv, runSpider_foldl items initCsvFile]
    rfl
  have h2 : runPipelineCsv items = csvFieldnames :: items.map itemRow := by
    rw [runPipelineCsv, runPipeline_foldl items initCsvFile]
    rfl
  refine ⟨h1, ?_, h2, ?_⟩
  · rw [h1, List.length_cons, flatMap_pair_length]
    omega
  · rw [h2, List.length_cons, List.length_map]
    omega

/-- C5, counterexample to the claim as stated.  One fully-populated record
produces a file of three rows (header plus two copies of the data row),
not the claimed one header plus one data row. -/
theorem c5_counterexample :
    runSpiderCsv [⟨some "Acme", some "01/01/2020", some "Lombardia",
        some "Milano", some "startup", some "a@b.it", some "0212345678"⟩] =
      [csvFieldnames,
       ["Acme", "01/01/2020", "Lombardia", "Milano", "startup", "a@b.it",
        "0212345678"],
       ["Acme", "01/01/2020", "Lombardia", "Milano", "startup", "a@b.it",
        "0212345678"]] ∧
    (runSpiderCsv [⟨some "Acme", some "01/01/2020", some "Lombardia",
        some "Milano", some "startup", some "a@b.it",
        some "0212345678"⟩]).length ≠ 1 + 1 := by
  decide

/-! ## Claim C6 -/

theorem crawl_pages_length_le (next : String → Option String) :
    ∀ (n : Nat) (u : String), (crawl_pages next n u).length ≤ n := by
  intro n
  induction n with
  | zero => intro u; simp [crawl_pages]
  | succ m ih =>
    intro u
    rw [crawl_pages]
    cases hnu : next u with
    | some u2 =>
      rw [List.length_cons]
      exact Nat.succ_le_succ (ih u2)
    | none =>
      simp

theorem scrapy_paginate_inv (next : String → Option String) :
    ∀ (n : Nat) (seen : List String) (u : String),
      (scrapy_paginate next n seen u).Nodup ∧
      (∀ w ∈ scrapy_paginate next n seen u, w ∉ seen) := by
  intro n
  induction n with
  | zero => intro seen u; simp [scrapy_paginate]
  | succ m ih =>
    intro seen u
    by_cases hu : u ∈ seen
    · rw [scrapy_paginate, if_pos hu]
      simp
    · rw [scrapy_paginate, if_neg hu]
      cases hnu : next u with
      | none => simp [hu]
      | some u2 =>
        obtain ⟨h1, h2⟩ := ih (u :: seen) u2
        constructor
        · rw [List.nodup_cons]
          exact ⟨fun hin => (h2 u hin) (List.mem_cons_self u seen), h1⟩
        · intro w hw
          rcases List.mem_cons.mp hw with rfl | hw2
          · exact hu
          · intro hws
            exact (h2 w hw2) (List.mem_cons_of_mem u hws)

/-- C6, amended.  v2.py `crawl` and v3.py `crawl` fetch at most `max_pages`
listing pages, for every next-page function (cyclic or unbounded chains
included).  The Scrapy implementation has no page-count ceiling: its
pagination is bounded only by the duplicate filter, i.e. the fetched
listing pages are pairwise distinct but can exceed any configured maximum
(see the counterexample). -/
theorem c6_pagination_bound (next : String → Option String) (n : Nat)
    (seen : List String) (u : String) :
    (crawl_pages next n u).length ≤ n ∧
    (scrapy_paginate next n seen u).Nodup :=
  ⟨crawl_pages_length_le next n u, (scrapy_paginate_inv next n seen u).1⟩

/-- C6, counterexample to the claim as stated.  Following an eleven-page
chain of fresh next links, the Scrapy pagination fetches 11 listing pages,
more than the largest page ceiling configured anywhere in the repository
(v3.py `main`'s `max_pages=10`): startup_crawler.py has no ceiling. -/
theorem c6_counterexample :
    (scrapy_paginate chainNext 20 [] "p1").length = 11 ∧
    ¬ ((scrapy_paginate chainNext 20 [] "p1").length ≤
        configured_max_pages) := by
  decide

/-! ## Claim C7 -/

/-- C7: on a results page where no prioritized "next" selector yields a
truthy href and no active-page+1 pagination link is found, the next-page
lookup of every implementation returns `none`
(startUpCrawler.py `get_next_page`, v2.py `get_next_page_url`,
v3.py `find_next_page_link`), and consequently the v2/v3 pagination loop
fetches no further listing page: it stops right after the current one. -/
theorem c7_no_next_page_terminates (v : NextPageView)
    (w : Option (Option String)) (x : V3NextView)
    (next : String → Option String) (n : Nat) (u : String)
    (h1 : ∀ hs ∈ v.nextSelectorHrefs, ∀ h ∈ hs, truthyOpt h = none)
    (h2 : ∀ c, currentPageOf v.activeTexts = some c →
      truthyOpt (v.numberedHref (c + 1)) = none)
    (h3 : w = none ∨ w = some none ∨ w = some (some ""))
    (h4 : ∀ es ∈ x.selectorElems, ∀ t ∈ es, v3ElemHref t = none)
    (h5 : ∀ t, x.activeText = some t →
      v3PageNumScan (strToNat (pyStrip t) + 1) x.pageAnchors = none)
    (h6 : next u = none) :
    get_next_page v = none ∧ get_next_page_url w = none ∧
    find_next_page_link x = none ∧
    crawl_pages next (n + 1) u = [u] := by
  refine ⟨?_, ?_, ?_, ?_⟩
  · have hmain : List.findSome? (fun hrefs => List.findSome? truthyOpt hrefs)
        v.nextSelectorHrefs = none :=
      findSome?_eq_none_of _ _ (fun hs hhs =>
        findSome?_eq_none_of _ _ (h1 hs hhs))
    rw [get_next_page, hmain]
    cases hc : currentPageOf v.activeTexts with
    | some c => exact h2 c hc
    | none => rfl
  · rcases h3 with rfl | rfl | rfl <;> simp [get_next_page_url, truthyOpt]
  · have hm1 : List.findSome? (fun elems => List.findSome? v3ElemHref elems)
        x.selectorElems = none :=
      findSome?_eq_none_of _ _ (fun es hes =>
        findSome?_eq_none_of _ _ (h4 es hes))
    rw [find_next_page_link, hm1]
    cases hat : x.activeText with
    | some t =>
      show (if pyIsDigits (pyStrip t) = true then
          v3PageNumScan (strToNat (pyStrip t) + 1) x.pageAnchors
        else none) = none
      by_cases hd : pyIsDigits (pyStrip t) = true
      · rw [if_pos hd]
        exact h5 t hat
      · rw [if_neg hd]
    | none => rfl
  · rw [crawl_pages, h6]

/-- C7 witness: a results page with no "next" anchors, no active-page
element and no pagination anchors yields `none` in all three lookups, and
the loop visits only the current page. -/
theorem c7_witness :
    get_next_page ⟨[], [], fun _ => none⟩ = none ∧
    get_next_page_url none = none ∧
    find_next_page_link ⟨[], none, []⟩ = none ∧
    crawl_pages (fun _ => none) 1 "page" = ["page"] :=
  c7_no_next_page_terminates ⟨[], [], fun _ => none⟩ none ⟨[], none, []⟩
    (fun _ => none) 0 "page"
    (fun a ha => absurd ha (List.not_mem_nil a))
    (fun _ _ => rfl)
    (Or.inl rfl)
    (fun a ha => absurd ha (List.not_mem_nil a))
    (fun _ ht => Option.noConfusion ht)
    rfl

/-! ## Claim C8 -/

/-- C8, amended.  For every URL that robots.txt disallows for the wildcard
agent `'*'` — the agent string `can_fetch` actually queries — v2.py
`get_page` issues no HTTP request and returns no document.  (A robots
group matching only the crawler's own user-agent string is never
consulted; see the counterexample.) -/
theorem c8_robots_skip (r : RobotsTxt) (net : String → Option (Nat × String))
    (url : String) (h : r.defaultAllow url = false) :
    get_page r net url = (none, 0) := by
  rw [get_page, if_neg (by rw [can_fetch, h]; exact Bool.false_ne_true)]

/-- C8 witness: with a wildcard group denying everything, the fetch of
a URL is skipped: no request is issued and the result is `none`. -/
theorem c8_witness :
    get_page ⟨fun _ => false, none⟩ (fun _ => some (200, "body"))
      "https://startup.registroimprese.it/isin/search" = (none, 0) :=
  c8_robots_skip ⟨fun _ => false, none⟩ (fun _ => some (200, "body"))
    "https://startup.registroimprese.it/isin/search" rfl

/-- C8, counterexample to the claim as stated.  A robots.txt whose group
matching the crawler's user agent disallows the URL while the wildcard
group allows it: the URL is disallowed for the crawler's user agent, yet
`get_page` issues the request (request count 1) and returns the body,
because `can_fetch` queries agent `'*'`, not the crawler's user agent. -/
theorem c8_counterexample :
    disallowedForCrawlerUA ⟨fun _ => true, some (fun _ => false)⟩
      "https://startup.registroimprese.it/isin/search" = true ∧
    get_page ⟨fun _ => true, some (fun _ => false)⟩
      (fun _ => some (200, "body"))
      "https://startup.registroimprese.it/isin/search" = (some "body", 1) ∧
    (1 : Nat) ≠ 0 := by
  refine ⟨rfl, ?_, by decide⟩
  rfl

/-! ## Claim C9 -/

theorem v3_process_links_filterMap {α ε ρ : Type}
    (process : α → Except ε (Option ρ)) (links : List α) :
    v3_process_links process links =
      links.filterMap (v3_keptRecord process) := by
  induction links with
  | nil => rfl
  | cons l ls ih =>
    cases hp : process l with
    | error e =>
      simp [v3_process_links, List.filterMap_cons, v3_keptRecord, hp, ih]
    | ok r? =>
      cases r? with
      | none =>
        simp [v3_process_links, List.filterMap_cons, v3_keptRecord, hp, ih]
      | some r =>
        simp [v3_process_links, List.filterMap_cons, v3_keptRecord, hp, ih]

theorem v2_process_links_error {α ε ρ : Type}
    (process : α → Except ε (Option ρ)) :
    ∀ (links : List α) (l : α) (e : ε), l ∈ links →
      process l = Except.error e →
      ∃ e2, v2_process_links process links = Except.error e2 := by
  intro links
  induction links with
  | nil =>
    intro l e h
    exact absurd h (List.not_mem_nil l)
  | cons a as ih =>
    intro l e hmem hpe
    rcases List.mem_cons.mp hmem with rfl | h2
    · exact ⟨e, by simp [v2_process_links, hpe]⟩
    · cases hp : process a with
      | error e3 => exact ⟨e3, by simp [v2_process_links, hp]⟩
      | ok r? =>
        obtain ⟨e2, he2⟩ := ih l e h2 hpe
        exact ⟨e2, by simp [v2_process_links, hp, he2]⟩

/-- C9, amended.  In v3.py an exception while processing one detail page is
caught at the per-record boundary and the run continues: the persisted
result is exactly the records of the links whose processing succeeded
(the `finally` block always saves).  In v2.py there is no per-record
catch: when processing of a listed link raises, the run aborts and nothing
is persisted, not even the records already collected. -/
theorem c9_record_boundary {α ε ρ : Type}
    (process : α → Except ε (Option ρ)) (links : List α) (l : α) (e : ε)
    (hmem : l ∈ links) (herr : process l = Except.error e) :
    v3_run process links =
      some (links.filterMap (v3_keptRecord process)) ∧
    v2_run process links = none := by
  constructor
  · rw [v3_run, v3_process_links_filterMap]
  · obtain ⟨e2, he2⟩ := v2_process_links_error process links l e hmem herr
    rw [v2_run, he2]

/-- C9 witness: with the middle of three links raising, v3 persists the
other two records while v2 persists nothing. -/
theorem c9_witness :
    v3_run (fun l => if l = "bad" then Except.error "boom"
        else Except.ok (some l)) ["good1", "bad", "good2"] =
      some ["good1", "good2"] ∧
    v2_run (fun l => if l = "bad" then Except.error "boom"
        else Except.ok (some l)) ["good1", "bad", "good2"] = none := by
  have h := c9_record_boundary
    (fun l => if l = "bad" then Except.error "boom"
      else Except.ok (some l))
    ["good1", "bad", "good2"] "bad" "boom" (by decide) rfl
  exact ⟨h.1.trans (by decide), h.2⟩

/-! ## Claim C10 -/

theorem request_seen_mono (st : DupeFilterState) (r : ScrapyRequest)
    (x : String) (hx : x ∈ st.seen_urls) :
    x ∈ (request_seen st r).2.seen_urls := by
  by_cases h1 : baseUrl r ∈ st.seen_urls
  · rw [request_seen, if_pos h1]
    exact hx
  · rw [request_seen, if_neg h1]
    by_cases h2 : metaFpSeen st r = true
    · rw [if_pos h2]
      exact hx
    · rw [if_neg h2]
      by_cases h3 : requestUrl r ∈ st.rfp_seen
      · rw [if_pos h3]
        exact List.mem_cons_of_mem _ hx
      · rw [if_neg h3]
        exact List.mem_cons_of_mem _ hx

theorem runRequests_mono (rs : List ScrapyRequest) :
    ∀ (st : DupeFilterState) (x : String), x ∈ st.seen_urls →
      x ∈ (runRequests st rs).seen_urls := by
  induction rs with
  | nil =>
    intro st x hx
    exact hx
  | cons r rs ih =>
    intro st x hx
    exact ih _ x (request_seen_mono st r x hx)

theorem request_seen_false_mem (st : DupeFilterState) (r : ScrapyRequest)
    (h : (request_seen st r).1 = false) :
    baseUrl r ∈ (request_seen st r).2.seen_urls := by
  by_cases h1 : baseUrl r ∈ st.seen_urls
  · rw [request_seen, if_pos h1] at h
    exact absurd h (by simp)
  · by_cases h2 : metaFpSeen st r = true
    · rw [request_seen, if_neg h1, if_pos h2] at h
      exact absurd h (by simp)
    · by_cases h3 : requestUrl r ∈ st.rfp_seen
      · rw [request_seen, if_neg h1, if_neg h2, if_pos h3]
        exact List.mem_cons_self _ _
      · rw [request_seen, if_neg h1, if_neg h2, if_neg h3]
        exact List.mem_cons_self _ _

theorem request_seen_true_of_mem (st : DupeFilterState) (r : ScrapyRequest)
    (h : baseUrl r ∈ st.seen_urls) : (request_seen st r).1 = true := by
  rw [request_seen, if_pos h]

/-- C10: once `request_seen` has let a request through (returned `false`),
any later request sharing its scheme, host and path — differing only in
the query string — is reported as already seen, regardless of the requests
processed in between; hence at most one of the two is ever fetched. -/
theorem c10_query_string_dedup (st : DupeFilterState)
    (r1 r2 : ScrapyRequest) (mid : List ScrapyRequest)
    (hs : r1.scheme = r2.scheme) (hh : r1.host = r2.host)
    (hp : r1.path = r2.path)
    (h1 : (request_seen st r1).1 = false) :
    (request_seen (runRequests (request_seen st r1).2 mid) r2).1 = true := by
  have hbase : baseUrl r2 = baseUrl r1 := by
    rw [baseUrl, baseUrl, hs, hh, hp]
  apply request_seen_true_of_mem
  rw [hbase]
  exact runRequests_mono mid _ _ (request_seen_false_mem st r1 h1)

/-- C10 witness: of two detail URLs distinguished only by their `?id=`
query parameter, the second is reported seen once the first got through. -/
theorem c10_witness :
    (request_seen (runRequests (request_seen ⟨[], [], []⟩
        ⟨"https", "startup.registroimprese.it", "/isin/detail", "id=1",
         none⟩).2 [])
      ⟨"https", "startup.registroimprese.it", "/isin/detail", "id=2",
       none⟩).1 = true :=
  c10_query_string_dedup ⟨[], [], []⟩ _ _ [] rfl rfl rfl (by decide)

/-- C9, counterexample to the claim as stated.  In v2.py, when the second
of three detail links raises, the run aborts: the record already collected
from the first link is not persisted (the final `save_to_csv` never runs),
contradicting "the run continues and records already collected are still
persisted". -/
theorem c9_counterexample :
    v2_run (fun l => if l = "bad" then Except.error "boom"
        else Except.ok (some l)) ["good1", "bad", "good2"] = none ∧
    (none : Option (List String)) ≠ some ["good1", "good2"] := by
  decide
